import Mathlib

/-!
Shallow embedding of the tsundo-cleaner backend's similarity and
recommendation core, translated from
`src/backend/src/services/similarityService.ts`,
`src/backend/src/services/recommendationService.ts`,
`src/backend/src/services/openaiService.ts`,
`src/backend/src/services/bookService.ts`, with the shared data model of
`src/shared/types/Book.ts` and the error kinds of
`src/backend/src/utils/errorHandler.ts`.

Modelling conventions:
* the SQLite store is a pure map from table (`BookType`) to its rows in
  table order; a `SELECT ... WHERE p ... LIMIT n` is `filter` then `take`;
* the embedding cache (`services/embeddingCache`, a module the staged tree
  only shows through its callers) and the OpenAI embedding provider enter
  as function parameters, per the interfaces `getEmbedding`/`saveEmbedding`
  and `getEmbedding(text)` the call sites use; the cache write-back is a
  state effect that cannot change the value returned within one call and
  is dropped;
* embedding vectors and similarity scores are real numbers (the TypeScript
  floats, idealised);
* JavaScript's `Array.prototype.sort` is stable (ES2019), and a stable sort
  is uniquely determined by its comparator preorder, so the
  `(a, b) => b.score - a.score` sorts are modelled by Mathlib's stable
  `List.insertionSort` with the relation "right score at most left score";
* `async`/`await` and `Promise.all` sequencing carry no observable
  nondeterminism here (each candidate's result is keyed by the candidate),
  so the functions are plain.
-/

/-- The two backlog tables, `BookType` of `src/shared/types/Book.ts`:
the want-to-read list and the owned-unread pile. -/
inductive BookType
  | wish
  | stacked
deriving DecidableEq, Repr

/-- The error kinds of `src/backend/src/utils/errorHandler.ts` that the
embedded services can signal, plus `provider` for a failure raised by the
OpenAI embedding provider (`openaiService.getEmbedding`). -/
inductive AppErr
  | validation
  | notFound
  | provider
deriving DecidableEq, Repr

/-- Database row shape (`BookDB` in the service files): the two availability
flags are stored as the strings "Yes"/"No". -/
structure BookDB where
  bookmeter_url : String
  isbn_or_asin : String
  book_title : String
  author : String
  publisher : String
  published_date : String
  exist_in_Sophia : String
  exist_in_UTokyo : String
  sophia_opac : Option String := none
  utokyo_opac : Option String := none
  sophia_mathlib_opac : Option String := none
  description : Option String := none
deriving DecidableEq, Repr

/-- Application model (`Book` of `src/shared/types/Book.ts`): the two
availability flags are booleans. The `bookType` tag some endpoints attach
dynamically is not part of this shared shape and is not modelled. -/
structure Book where
  bookmeter_url : String
  isbn_or_asin : String
  book_title : String
  author : String
  publisher : String
  published_date : String
  exist_in_Sophia : Bool
  exist_in_UTokyo : Bool
  sophia_opac : Option String := none
  utokyo_opac : Option String := none
  sophia_mathlib_opac : Option String := none
  description : Option String := none
deriving DecidableEq, Repr

/-- `bookService.convertToAppModel`: the spread of the row plus
normalisation of the two "Yes"/"No" flags to booleans. -/
def convertToAppModel (dbBook : BookDB) : Book :=
  { bookmeter_url := dbBook.bookmeter_url
    isbn_or_asin := dbBook.isbn_or_asin
    book_title := dbBook.book_title
    author := dbBook.author
    publisher := dbBook.publisher
    published_date := dbBook.published_date
    exist_in_Sophia := dbBook.exist_in_Sophia == "Yes"
    exist_in_UTokyo := dbBook.exist_in_UTokyo == "Yes"
    sophia_opac := dbBook.sophia_opac
    utokyo_opac := dbBook.utokyo_opac
    sophia_mathlib_opac := dbBook.sophia_mathlib_opac
    description := dbBook.description }

/-- The whitespace characters of the regexes `/\s+/` and of
`String.prototype.trim`, restricted to the ASCII whitespace relevant to the
stored data. -/
def isSpaceChar (c : Char) : Bool :=
  c == ' ' || c == '\t' || c == '\n' || c == '\r' || c == '\x0b' || c == '\x0c'

/-- A character the character class `\w` keeps: ASCII letters, digits and
the underscore (`Char.isAlphanum` is exactly ASCII-alphanumeric). -/
def isWordChar (c : Char) : Bool :=
  c.isAlphanum || c == '_'

/-- `String.prototype.toLowerCase`, character by character (`Char.toLower`
lower-cases exactly the ASCII letters, which is the relevant range). -/
def jsToLower (s : String) : String :=
  String.mk (s.toList.map Char.toLower)

/-- `String.prototype.trim`: strip leading and trailing whitespace. -/
def jsTrim (s : String) : String :=
  String.mk (((s.toList.dropWhile isSpaceChar).reverse.dropWhile isSpaceChar).reverse)

/-- Accumulator pass of `splitRuns`: `acc` holds the reversed current token. -/
def splitRunsAux : List Char → List Char → List (List Char)
  | acc, [] => if acc.isEmpty then [] else [acc.reverse]
  | acc, c :: cs =>
    if isSpaceChar c then
      if acc.isEmpty then splitRunsAux [] cs else acc.reverse :: splitRunsAux [] cs
    else
      splitRunsAux (c :: acc) cs

/-- The maximal runs of non-whitespace characters, in order. -/
def splitRuns (s : List Char) : List (List Char) :=
  splitRunsAux [] s

/-- `String.prototype.split(/\s+/)`: the non-empty runs, plus an empty token
at an end whose side of the string starts/ends with whitespace, and `[""]`
for the empty string. -/
def jsSplitWs (s : String) : List String :=
  let cs := s.toList
  if cs.isEmpty then [""]
  else
    (if isSpaceChar (cs.headD 'a') then [""] else [])
      ++ (splitRuns cs).map (fun t => String.mk t)
      ++ (if isSpaceChar (cs.getLastD 'a') then [""] else [])

/-- The fixed stop-word list of `similarityService.extractKeyTerms`. -/
def stopWords : List String :=
  ["the", "and", "for", "with", "this", "that"]

/-- `[...new Set(words)]`: keep the first occurrence of each word, in
insertion order; `seen` is the set built so far. -/
def dedupSeen : List String → List String → List String
  | _, [] => []
  | seen, w :: ws =>
    if w ∈ seen then dedupSeen seen ws else w :: dedupSeen (w :: seen) ws

/-- `similarityService.extractKeyTerms`: lower-case, erase the characters
matching `[^\w\s]`, split on `/\s+/`, keep tokens longer than two characters
that are not stop words, deduplicate keeping first occurrences, truncate to
`maxTerms` (default 20). -/
def extractKeyTerms (text : String) (maxTerms : ℕ := 20) : List String :=
  let words :=
    ((jsSplitWs (String.mk ((jsToLower text).toList.filter
        (fun c => isWordChar c || isSpaceChar c)))).filter
      (fun w => 2 < w.length)).filter (fun w => !(stopWords.contains w))
  (dedupSeen [] words).take maxTerms

/-- Whether a book has usable descriptive text: the repeated JavaScript test
`book.description && book.description.trim() !== ''`. -/
def hasDescription (book : Book) : Bool :=
  match book.description with
  | none => false
  | some s => !(jsTrim s == "")

/-- Dot product loop of `openaiService.calculateCosineSimilarity`
(`vec1.reduce((sum, val, i) => sum + val * vec2[i], 0)`). -/
noncomputable def dotList (vec1 vec2 : List ℝ) : ℝ :=
  ((vec1.zip vec2).map (fun p => p.1 * p.2)).sum

/-- Sum of squared entries, the magnitude loop before the square root. -/
noncomputable def sumSq (vec : List ℝ) : ℝ :=
  (vec.map (fun x => x * x)).sum

/-- A vector's Euclidean magnitude, `Math.sqrt` of the sum of squares. -/
noncomputable def magnitude (vec : List ℝ) : ℝ :=
  Real.sqrt (sumSq vec)

/-- `openaiService.calculateCosineSimilarity`: throws on a dimension
mismatch, returns 0 when either magnitude is 0 (the divide-by-zero guard),
else the dot product over the product of magnitudes. -/
noncomputable def calculateCosineSimilarity (vec1 vec2 : List ℝ) : Except Unit ℝ :=
  if vec1.length ≠ vec2.length then .error ()
  else if magnitude vec1 = 0 ∨ magnitude vec2 = 0 then .ok 0
  else .ok (dotList vec1 vec2 / (magnitude vec1 * magnitude vec2))

/-- The text `similarityService.getBookEmbedding` embeds: the description
when present and non-blank, else "title by author". -/
def textForEmbedding (book : Book) : String :=
  if hasDescription book then book.description.getD ""
  else book.book_title ++ " by " ++ book.author

/-- `similarityService.getBookEmbedding`: cache lookup by `bookmeter_url`,
on a miss ask the provider for the embedding of `textForEmbedding`. The
write-back to the cache is dropped (state effect, value-irrelevant within
one call); a provider failure propagates. -/
def getBookEmbedding (cache : String → Option (List ℝ))
    (provider : String → Except AppErr (List ℝ)) (book : Book) :
    Except AppErr (List ℝ) :=
  match cache book.bookmeter_url with
  | some v => .ok v
  | none => provider (textForEmbedding book)

/-- The per-candidate body of the `similarityScores` map of
`findSimilarByEmbeddings`: score the candidate by cosine similarity against
the reference embedding; a failure of the candidate's own lookup, or a
cosine dimension throw, is caught in the per-candidate `try` and scored
-1. -/
noncomputable def scoreOneBook (cache : String → Option (List ℝ))
    (provider : String → Except AppErr (List ℝ))
    (referenceEmbedding : List ℝ) (book : Book) : Book × ℝ :=
  match getBookEmbedding cache provider book with
  | .error _ => (book, -1)
  | .ok embedding =>
    match calculateCosineSimilarity referenceEmbedding embedding with
    | .error _ => (book, -1)
    | .ok similarity => (book, similarity)

/-- The `similarityScores` array of `findSimilarByEmbeddings`. -/
noncomputable def embeddingScores (cache : String → Option (List ℝ))
    (provider : String → Except AppErr (List ℝ))
    (referenceEmbedding : List ℝ) (targetBooks : List Book) :
    List (Book × ℝ) :=
  targetBooks.map (scoreOneBook cache provider referenceEmbedding)

/-- `similarityService.findSimilarByEmbeddings`: empty candidate pool short
circuits to an empty result; a failure of the reference's own embedding
lookup fails the whole call; otherwise filter out scores below 0, sort by
descending score (stable), truncate to `limit`, return the books. -/
noncomputable def findSimilarByEmbeddings (cache : String → Option (List ℝ))
    (provider : String → Except AppErr (List ℝ))
    (referenceBook : Book) (targetBooks : List Book) (limit : ℕ) :
    Except AppErr (List Book) :=
  if targetBooks.isEmpty then .ok []
  else
    match getBookEmbedding cache provider referenceBook with
    | .error e => .error e
    | .ok referenceEmbedding =>
      .ok (((((embeddingScores cache provider referenceEmbedding targetBooks).filter
          (fun p => decide (0 ≤ p.2))).insertionSort
            (fun p q => q.2 ≤ p.2)).take limit).map Prod.fst)

/-- The tfidf score the `natural` library computes for a term against the
document at `docIndex` of a corpus (the documents added by `addDocument`,
in order). The library is an external dependency, so it enters the model
as an opaque real-valued function of corpus, term and document index. -/
def TfIdfModel : Type :=
  List String → String → ℕ → ℝ

/-- A book's descriptive text with the `|| ''` default applied. -/
def descText (book : Book) : String :=
  book.description.getD ""

/-- The scored list of `findSimilarByDescription`: the candidate at
position `index` (0-based) of the valid pool is scored against corpus
document `index + 1` (the reference is document 0) by folding the tfidf
values of the reference's key terms. -/
def scoreDocs (tfidf : TfIdfModel) (corpus : List String)
    (terms : List String) : ℕ → List Book → List (Book × ℝ)
  | _, [] => []
  | index, book :: rest =>
    (book, terms.foldl (fun score term => score + tfidf corpus term (index + 1)) 0)
      :: scoreDocs tfidf corpus terms (index + 1) rest

/-- `similarityService.findSimilarByDescription`: keep candidates with
non-blank descriptions, short circuit to `[]` when none remain, build the
corpus with the reference's text first, score each candidate over the
reference's key terms, sort by descending score (stable), truncate. -/
noncomputable def findSimilarByDescription (tfidf : TfIdfModel)
    (referenceBook : Book) (targetBooks : List Book) (limit : ℕ) : List Book :=
  let validTargetBooks := targetBooks.filter hasDescription
  if validTargetBooks.isEmpty then []
  else
    let corpus := descText referenceBook :: validTargetBooks.map descText
    let terms := extractKeyTerms (descText referenceBook) 20
    ((((scoreDocs tfidf corpus terms 0 validTargetBooks).insertionSort
        (fun p q => q.2 ≤ p.2)).take limit).map Prod.fst)

/-- Section 4.2 of the spec, written from its words: one corpus containing
the reference document first then each valid candidate's text in input
order; a candidate's score is the sum over the reference's key terms of
TF-IDF(term, candidate document); descending stable sort; truncation. -/
noncomputable def rankByDescription_spec (tfidf : TfIdfModel)
    (reference : Book) (candidates : List Book) (limit : ℕ) : List Book :=
  let valid := candidates.filter hasDescription
  let corpus := descText reference :: valid.map descText
  let terms := extractKeyTerms (descText reference) 20
  let scored := ((List.range valid.length).zip valid).map
    (fun p => (p.2, (terms.map (fun term => tfidf corpus term (p.1 + 1))).sum))
  (((scored.insertionSort (fun p q => q.2 ≤ p.2)).take limit).map Prod.fst)

/-- The title-word list of `findSimilarByTitleAndAuthor`: the lower-cased
title split on `/\s+/`. -/
def titleWords (book : Book) : List String :=
  jsSplitWs (jsToLower book.book_title)

/-- The score loop of `findSimilarByTitleAndAuthor`: +3 for each reference
title word also present among the candidate's title words, +5 for an
exactly equal author, +2 for an exactly equal publisher. -/
def metadataScore (referenceBook book : Book) : ℕ :=
  ((titleWords referenceBook).foldl
      (fun score word => if (titleWords book).contains word then score + 3 else score) 0)
    + (if referenceBook.author == book.author then 5 else 0)
    + (if referenceBook.publisher == book.publisher then 2 else 0)

/-- Section 4.4 of the spec, written from its words: 3 times the count of
shared title words, plus 5 for an equal creator, plus 2 for an equal
publisher. -/
def rankByMetadata_score_spec (reference book : Book) : ℕ :=
  3 * (titleWords reference).countP (fun word => (titleWords book).contains word)
    + (if reference.author == book.author then 5 else 0)
    + (if reference.publisher == book.publisher then 2 else 0)

/-- `similarityService.findSimilarByTitleAndAuthor`: score every candidate,
sort by descending score (stable), truncate to `limit`. -/
def findSimilarByTitleAndAuthor (referenceBook : Book)
    (targetBooks : List Book) (limit : ℕ) : List Book :=
  (((targetBooks.map (fun book => (book, metadataScore referenceBook book))).insertionSort
      (fun p q => q.2 ≤ p.2)).take limit).map Prod.fst

/-- `similarityService.getSimilarBooks`, the orchestrator: validate the URL,
resolve the reference row in the requested table (NotFound when absent),
load up to 100 other rows of the same table as candidates, try the
embedding engine, and on any of its errors fall back to the metadata engine
(blank reference description) or the TF-IDF engine (otherwise), both over
the candidates that have descriptions. `validateBookType` cannot fail in
the typed model, since `type` is already a `BookType`. -/
noncomputable def getSimilarBooks (cache : String → Option (List ℝ))
    (provider : String → Except AppErr (List ℝ)) (tfidf : TfIdfModel)
    (store : BookType → List BookDB)
    (referenceBookUrl : String) (type : BookType) (limit : ℕ) :
    Except AppErr (List Book) :=
  if referenceBookUrl == "" then .error .validation
  else
    match (store type).filter (fun b => b.bookmeter_url == referenceBookUrl) with
    | [] => .error .notFound
    | referenceDbBook :: _ =>
      let referenceBook := convertToAppModel referenceDbBook
      let targetBooks :=
        (((store type).filter (fun b => !(b.bookmeter_url == referenceBookUrl))).take 100).map
          convertToAppModel
      match findSimilarByEmbeddings cache provider referenceBook targetBooks limit with
      | .ok result => .ok result
      | .error _ =>
        if !(hasDescription referenceBook) then
          .ok (findSimilarByTitleAndAuthor referenceBook
            (targetBooks.filter hasDescription) limit)
        else
          .ok (findSimilarByDescription tfidf referenceBook
            (targetBooks.filter hasDescription) limit)

/-- Byte-order comparison of titles: SQLite's `ORDER BY book_title` under
the default BINARY collation compares the UTF-8 bytes, which on code points
is plain scalar-value order. -/
def lexLe : List Char → List Char → Bool
  | [], _ => true
  | _ :: _, [] => false
  | a :: as, b :: bs =>
    if a.val < b.val then true
    else if b.val < a.val then false
    else lexLe as bs

/-- `ORDER BY book_title`: stable sort of the rows by byte-order title. -/
def sortByTitle (books : List BookDB) : List BookDB :=
  books.insertionSort (fun a b => lexLe a.book_title.toList b.book_title.toList = true)

/-- Seven days in milliseconds, the divisor of the week-number clock. -/
def weekMillis : ℕ :=
  7 * 24 * 60 * 60 * 1000

/-- The shared tail of the weekly selector: NotFound on an empty candidate
list, else the candidate at index `weekNumber % length`, converted to the
application model. -/
def pickAt (weekNumber : ℕ) (books : List BookDB) : Except AppErr Book :=
  if h : books = [] then .error .notFound
  else
    .ok (convertToAppModel (books.get
      ⟨weekNumber % books.length, Nat.mod_lt _ (List.length_pos.mpr h)⟩))

/-- `recommendationService.getWeeklyRecommendation`: week number from the
epoch-millisecond clock, then three queries against the `wish` table only —
rows with `exist_in_UTokyo = 'Yes'`, else rows with
`exist_in_Sophia = 'Yes'`, else all rows, each ordered by title — and the
week-indexed pick. The dynamically attached `bookType: 'wish'` tag is
outside the shared `Book` shape and is not modelled. -/
def getWeeklyRecommendation (nowMillis : ℕ)
    (store : BookType → List BookDB) : Except AppErr Book :=
  let weekNumber := nowMillis / weekMillis
  let utokyoBooks :=
    sortByTitle ((store BookType.wish).filter (fun b => b.exist_in_UTokyo == "Yes"))
  let sophiaBooks :=
    if utokyoBooks.isEmpty then
      sortByTitle ((store BookType.wish).filter (fun b => b.exist_in_Sophia == "Yes"))
    else utokyoBooks
  let books :=
    if sophiaBooks.isEmpty then sortByTitle (store BookType.wish) else sophiaBooks
  pickAt weekNumber books

/-- Section 4.6 of the spec (and claim C2), written from its words, over an
arbitrary candidate pool: the first non-empty of the three availability
tiers (primary collection, secondary collection, everything), each sorted
by title, indexed by `weekNumber mod length`. -/
def weeklyPickSpec (nowMillis : ℕ) (pool : List BookDB) : Except AppErr Book :=
  let weekNumber := nowMillis / weekMillis
  let tierA := sortByTitle (pool.filter (fun b => b.exist_in_UTokyo == "Yes"))
  let tierB := sortByTitle (pool.filter (fun b => b.exist_in_Sophia == "Yes"))
  let tierC := sortByTitle pool
  pickAt weekNumber (if !tierA.isEmpty then tierA else if !tierB.isEmpty then tierB else tierC)

/-- A cache with no entries: every lookup misses. -/
def cacheNone : String → Option (List ℝ) :=
  fun _ => none

/-- An embedding provider that fails on every call. -/
def providerDown : String → Except AppErr (List ℝ) :=
  fun _ => .error .provider

/-- A tfidf model that scores every term of every document 0. -/
noncomputable def tfidfZero : TfIdfModel :=
  fun _ _ _ => 0

/-- Reference row with a description, for exercising the TF-IDF fallback. -/
def refDbC1 : BookDB :=
  { bookmeter_url := "u1", isbn_or_asin := "i1", book_title := "Intro to X"
    author := "A. Smith", publisher := "P1", published_date := "2020"
    exist_in_Sophia := "No", exist_in_UTokyo := "No"
    description := some "An interesting description about databases" }

/-- Candidate row with a description. -/
def candDbC1 : BookDB :=
  { bookmeter_url := "u2", isbn_or_asin := "i2", book_title := "Intro to Y"
    author := "A. Smith", publisher := "P2", published_date := "2021"
    exist_in_Sophia := "No", exist_in_UTokyo := "No"
    description := some "Another description text" }

/-- Store whose every table holds the two described rows. -/
def storeC1 : BookType → List BookDB :=
  fun _ => [refDbC1, candDbC1]

/-- Reference row without a description, for the metadata fallback. -/
def refDbX : BookDB :=
  { bookmeter_url := "x1", isbn_or_asin := "j1", book_title := "Intro to X"
    author := "A. Smith", publisher := "P1", published_date := "2020"
    exist_in_Sophia := "No", exist_in_UTokyo := "No" }

/-- Candidate row without a description. -/
def candDbX : BookDB :=
  { bookmeter_url := "x2", isbn_or_asin := "j2", book_title := "Intro to Y"
    author := "A. Smith", publisher := "P2", published_date := "2021"
    exist_in_Sophia := "No", exist_in_UTokyo := "No" }

/-- Store whose every table holds the two description-less rows. -/
def storeX : BookType → List BookDB :=
  fun _ => [refDbX, candDbX]

/-- A row that lives in the stacked partition and is flagged available in
the primary (UTokyo) collection. -/
def bStacked : BookDB :=
  { bookmeter_url := "s1", isbn_or_asin := "k1", book_title := "Stacked Book"
    author := "B. Jones", publisher := "P3", published_date := "2019"
    exist_in_Sophia := "No", exist_in_UTokyo := "Yes" }

/-- A catalog whose wish partition is empty while the stacked partition
holds one primary-flagged item. -/
def storeStackedOnly : BookType → List BookDB :=
  fun t => match t with
  | .wish => []
  | .stacked => [bStacked]

/-- A catalog with a single wish-partition row, for the determinism
witness. -/
def storeOneWish : BookType → List BookDB :=
  fun t => match t with
  | .wish => [refDbX]
  | .stacked => []

/-- Application-model reference for the negative-similarity witness; its
embedding is cached. -/
def refC10 : Book :=
  { bookmeter_url := "r10", isbn_or_asin := "m1", book_title := "Ref"
    author := "A", publisher := "P", published_date := "2020"
    exist_in_Sophia := false, exist_in_UTokyo := false }

/-- Application-model candidate whose cached embedding points opposite the
reference's. -/
def negC10 : Book :=
  { bookmeter_url := "n10", isbn_or_asin := "m2", book_title := "Neg"
    author := "B", publisher := "Q", published_date := "2021"
    exist_in_Sophia := false, exist_in_UTokyo := false }

/-- Cache holding opposite one-dimensional embeddings for the two books of
the negative-similarity witness. -/
noncomputable def cacheC10 : String → Option (List ℝ) :=
  fun url => if url == "r10" then some [1] else if url == "n10" then some [-1] else none

/-- The unrelated candidate of the spec's concrete metadata scenario. -/
def bUnrelated : Book :=
  { bookmeter_url := "x3", isbn_or_asin := "j3", book_title := "Unrelated"
    author := "Z", publisher := "P9", published_date := "2018"
    exist_in_Sophia := false, exist_in_UTokyo := false }

theorem mem_of_mem_dedupSeen (ws : List String) :
    ∀ (seen : List String) (w : String), w ∈ dedupSeen seen ws → w ∈ ws := by
  induction ws with
  | nil => intro seen w h; simp [dedupSeen] at h
  | cons x xs ih =>
    intro seen w h
    by_cases hx : x ∈ seen
    · simp only [dedupSeen, if_pos hx] at h
      exact List.mem_cons_of_mem _ (ih seen w h)
    · simp only [dedupSeen, if_neg hx, List.mem_cons] at h
      rcases h with h | h
      · exact h ▸ List.mem_cons_self _ _
      · exact List.mem_cons_of_mem _ (ih _ w h)

theorem nodup_dedupSeen (ws : List String) :
    ∀ seen : List String,
      (dedupSeen seen ws).Nodup ∧ ∀ w ∈ dedupSeen seen ws, w ∉ seen := by
  induction ws with
  | nil => intro seen; simp [dedupSeen]
  | cons x xs ih =>
    intro seen
    by_cases hx : x ∈ seen
    · simpa only [dedupSeen, if_pos hx] using ih seen
    · simp only [dedupSeen, if_neg hx]
      refine ⟨List.nodup_cons.mpr ⟨fun hmem => ?_, (ih (x :: seen)).1⟩, ?_⟩
      · exact (ih (x :: seen)).2 x hmem (List.mem_cons_self _ _)
      · intro w hw
        rcases List.mem_cons.mp hw with h | h
        · exact h ▸ hx
        · exact fun hs => (ih (x :: seen)).2 w h (List.mem_cons_of_mem _ hs)

theorem toLower_of_space (c : Char) (h : isSpaceChar c = true) : Char.toLower c = c := by
  simp only [isSpaceChar, Bool.or_eq_true, beq_iff_eq] at h
  rcases h with ((((h | h) | h) | h) | h) | h <;> subst h <;> decide

theorem splitRunsAux_all_space :
    ∀ (l : List Char), (∀ c ∈ l, isSpaceChar c = true) → splitRunsAux [] l = [] := by
  intro l
  induction l with
  | nil => intro _; simp [splitRunsAux]
  | cons c cs ih =>
    intro h
    have hc : isSpaceChar c = true := h c (List.mem_cons_self _ _)
    simp only [splitRunsAux, hc, if_pos, List.isEmpty_nil, if_true]
    exact ih fun d hd => h d (List.mem_cons_of_mem _ hd)

/-- C7: `extractKeyTerms` returns at most `maxTerms` terms, each longer than
two characters and outside the stop-word list, with no duplicates, and
returns the empty list on empty or whitespace-only input. Determinism is
immediate: the embedding is a pure function. -/
theorem extractKeyTerms_spec (text : String) (maxTerms : ℕ) :
    (extractKeyTerms text maxTerms).length ≤ maxTerms
    ∧ (∀ w ∈ extractKeyTerms text maxTerms, 2 < w.length ∧ w ∉ stopWords)
    ∧ (extractKeyTerms text maxTerms).Nodup
    ∧ ((∀ c ∈ text.toList, isSpaceChar c = true) → extractKeyTerms text maxTerms = []) := by
  refine ⟨List.length_take_le _ _, ?_, ?_, ?_⟩
  · intro w hw
    have hw1 := mem_of_mem_dedupSeen _ _ _ (List.mem_of_mem_take hw)
    rw [List.mem_filter] at hw1
    obtain ⟨hw2, hstop⟩ := hw1
    rw [List.mem_filter] at hw2
    refine ⟨by simpa using hw2.2, ?_⟩
    intro hmem
    rw [Bool.not_eq_true', List.contains_eq_any_beq] at hstop
    simp only [List.any_eq_false, beq_iff_eq] at hstop
    exact hstop w hmem rfl
  · exact List.Nodup.sublist (List.take_sublist _ _) (nodup_dedupSeen _ []).1
  · intro hall
    have hlow : ∀ c ∈ (jsToLower text).toList, isSpaceChar c = true := by
      intro c hc
      have : (jsToLower text).toList = text.toList.map Char.toLower := rfl
      rw [this, List.mem_map] at hc
      obtain ⟨d, hd, rfl⟩ := hc
      rw [toLower_of_space d (hall d hd)]
      exact hall d hd
    set stripped := (jsToLower text).toList.filter (fun c => isWordChar c || isSpaceChar c)
      with hstripped
    have hstrip : ∀ c ∈ stripped, isSpaceChar c = true := by
      intro c hc
      exact hlow c (List.mem_of_mem_filter hc)
    have hruns : splitRuns stripped = [] :=
      splitRunsAux_all_space stripped hstrip
    have hmem : ∀ w ∈ jsSplitWs (String.mk stripped), w = "" := by
      intro w hw
      have hcs : (String.mk stripped).toList = stripped := rfl
      simp only [jsSplitWs, hcs, hruns, List.map_nil] at hw
      by_cases he : stripped.isEmpty
      · simp only [if_pos he, List.mem_singleton] at hw
        exact hw
      · simp only [if_neg he] at hw
        rcases List.mem_append.mp hw with h | h
        · rcases List.mem_append.mp h with h1 | h1 <;>
            first
            | (split at h1 <;> simp_all)
            | simp at h1
        · split at h <;> simp_all
    have hfilter :
        (jsSplitWs (String.mk stripped)).filter (fun w => 2 < w.length) = [] := by
      rw [List.filter_eq_nil_iff]
      intro w hw
      rw [hmem w hw]
      decide
    simp only [extractKeyTerms, hfilter, List.filter_nil, dedupSeen, List.take_nil]

theorem mem_of_mem_sortTakeMap {α β : Type} (r : α × β → α × β → Prop)
    [DecidableRel r] (l : List (α × β)) (k : ℕ) (b : α)
    (h : b ∈ ((l.insertionSort r).take k).map Prod.fst) : ∃ s, (b, s) ∈ l := by
  rw [List.mem_map] at h
  obtain ⟨p, hp, rfl⟩ := h
  have hmem : p ∈ l :=
    ((List.perm_insertionSort r l).mem_iff).mp (List.mem_of_mem_take hp)
  exact ⟨p.2, by simpa using hmem⟩

theorem length_sortTakeMap {α β : Type} (r : α × β → α × β → Prop)
    [DecidableRel r] (l : List (α × β)) (k : ℕ) :
    (((l.insertionSort r).take k).map Prod.fst).length ≤ k := by
  rw [List.length_map]
  exact List.length_take_le _ _

theorem foldl_add3_countP (ws : List String) (p : String → Bool) :
    ∀ n : ℕ, ws.foldl (fun s w => if p w then s + 3 else s) n = n + 3 * ws.countP p := by
  induction ws with
  | nil => intro n; simp
  | cons x xs ih =>
    intro n
    by_cases hx : p x
    · simp only [List.foldl_cons, hx, if_true, ih, List.countP_cons, if_pos hx]
      ring
    · simp [List.foldl_cons, hx, ih, List.countP_cons]

theorem metadataScore_eq_spec (reference book : Book) :
    metadataScore reference book = rankByMetadata_score_spec reference book := by
  unfold metadataScore rankByMetadata_score_spec
  rw [foldl_add3_countP]
  ring

/-- C5: the metadata engine's score is exactly 3 times the count of shared
lower-cased title words plus 5 for an equal author plus 2 for an equal
publisher; the engine sorts by descending score (stable), truncates to
`limit`, never fails, and on the spec's concrete scenario ranks the
author-matching candidate (score 11) before the unrelated one (score 0). -/
theorem findSimilarByTitleAndAuthor_spec :
    (∀ reference book, metadataScore reference book = rankByMetadata_score_spec reference book)
    ∧ (∀ reference targets limit,
        (findSimilarByTitleAndAuthor reference targets limit).length ≤ limit)
    ∧ (∀ reference targets limit,
        ∀ b ∈ findSimilarByTitleAndAuthor reference targets limit, b ∈ targets)
    ∧ findSimilarByTitleAndAuthor (convertToAppModel refDbX)
        [convertToAppModel candDbX, bUnrelated] 2
        = [convertToAppModel candDbX, bUnrelated]
    ∧ metadataScore (convertToAppModel refDbX) (convertToAppModel candDbX) = 11
    ∧ metadataScore (convertToAppModel refDbX) bUnrelated = 0 := by
  refine ⟨metadataScore_eq_spec, ?_, ?_, by decide, by decide, by decide⟩
  · intro reference targets limit
    exact length_sortTakeMap _ _ _
  · intro reference targets limit b hb
    obtain ⟨s, hs⟩ := mem_of_mem_sortTakeMap _ _ _ _ hb
    rw [List.mem_map] at hs
    obtain ⟨a, ha, heq⟩ := hs
    cases heq
    exact ha

theorem foldl_add_sum (terms : List String) (f : String → ℝ) :
    ∀ init : ℝ, terms.foldl (fun s t => s + f t) init = init + (terms.map f).sum := by
  induction terms with
  | nil => intro init; simp
  | cons x xs ih =>
    intro init
    rw [List.foldl_cons, ih, List.map_cons, List.sum_cons]
    ring

theorem scoreDocs_eq (tfidf : TfIdfModel) (corpus : List String) (terms : List String) :
    ∀ (books : List Book) (k : ℕ),
      scoreDocs tfidf corpus terms k books
        = ((List.range' k books.length).zip books).map
            (fun p => (p.2, (terms.map (fun term => tfidf corpus term (p.1 + 1))).sum)) := by
  intro books
  induction books with
  | nil => intro k; simp [scoreDocs]
  | cons b bs ih =>
    intro k
    rw [scoreDocs, ih (k + 1), foldl_add_sum]
    simp [List.range'_succ]

theorem scoreDocs_fst (tfidf : TfIdfModel) (corpus : List String) (terms : List String) :
    ∀ (books : List Book) (k : ℕ),
      (scoreDocs tfidf corpus terms k books).map Prod.fst = books := by
  intro books
  induction books with
  | nil => intro k; simp [scoreDocs]
  | cons b bs ih => intro k; simp [scoreDocs, ih (k + 1)]

theorem scoreDocs_snd_zero (tfidf : TfIdfModel) (corpus : List String)
    (terms : List String) (h0 : ∀ term docIndex, tfidf corpus term docIndex = 0) :
    ∀ (books : List Book) (k : ℕ), ∀ p ∈ scoreDocs tfidf corpus terms k books, p.2 = 0 := by
  intro books
  induction books with
  | nil => intro k p hp; simp [scoreDocs] at hp
  | cons b bs ih =>
    intro k p hp
    rw [scoreDocs, List.mem_cons] at hp
    rcases hp with hp | hp
    · subst hp
      rw [foldl_add_sum]
      simp only [zero_add]
      exact List.sum_eq_zero (by simp [h0])
    · exact ih (k + 1) p hp

/-- C6: the TF-IDF engine equals the spec-side ranking (one corpus with the
reference document first, score = sum of tfidf over the reference's key
terms against the candidate's document index, descending stable sort,
truncation); it returns the empty list (not an error) when no candidate has
descriptive text; it never exceeds `limit`; it only returns candidates with
descriptive text; when every tfidf value over the corpus is 0 it returns
the valid candidates in input order truncated to `limit`; and when the
valid pool fits within `limit` no candidate is dropped, whatever its
score. -/
theorem findSimilarByDescription_spec (tfidf : TfIdfModel) (reference : Book)
    (targets : List Book) (limit : ℕ) :
    (findSimilarByDescription tfidf reference targets limit
        = rankByDescription_spec tfidf reference targets limit)
    ∧ (targets.filter hasDescription = [] →
        findSimilarByDescription tfidf reference targets limit = [])
    ∧ (findSimilarByDescription tfidf reference targets limit).length ≤ limit
    ∧ (∀ b ∈ findSimilarByDescription tfidf reference targets limit,
        b ∈ targets.filter hasDescription)
    ∧ ((∀ term docIndex,
          tfidf (descText reference :: (targets.filter hasDescription).map descText)
            term docIndex = 0) →
        findSimilarByDescription tfidf reference targets limit
          = (targets.filter hasDescription).take limit)
    ∧ ((targets.filter hasDescription).length ≤ limit →
        ∀ b ∈ targets.filter hasDescription,
          b ∈ findSimilarByDescription tfidf reference targets limit) := by
  by_cases hv : (targets.filter hasDescription).isEmpty
  · have hnil : targets.filter hasDescription = [] := List.isEmpty_iff.mp hv
    refine ⟨?_, fun _ => ?_, ?_, ?_, fun _ => ?_, fun _ => ?_⟩ <;>
      simp [findSimilarByDescription, rankByDescription_spec, hnil, scoreDocs]
  · have hval : ¬ targets.filter hasDescription = [] := by
      simpa [List.isEmpty_iff] using hv
    have heq : findSimilarByDescription tfidf reference targets limit
        = rankByDescription_spec tfidf reference targets limit := by
      simp only [findSimilarByDescription, rankByDescription_spec, if_neg hv,
        scoreDocs_eq, List.range_eq_range']
    have hunfold : findSimilarByDescription tfidf reference targets limit
        = ((((scoreDocs tfidf
              (descText reference :: (targets.filter hasDescription).map descText)
              (extractKeyTerms (descText reference) 20) 0
              (targets.filter hasDescription)).insertionSort
            (fun p q => q.2 ≤ p.2)).take limit).map Prod.fst) := by
      simp only [findSimilarByDescription, if_neg hv]
    refine ⟨heq, fun h => absurd h hval, ?_, ?_, ?_, ?_⟩
    · rw [hunfold]; exact length_sortTakeMap _ _ _
    · intro b hb
      rw [hunfold] at hb
      obtain ⟨s, hs⟩ := mem_of_mem_sortTakeMap _ _ _ _ hb
      have : ((b, s).1 : Book) ∈ (scoreDocs tfidf _ _ 0 (targets.filter hasDescription)).map Prod.fst :=
        List.mem_map_of_mem Prod.fst hs
      rwa [scoreDocs_fst] at this
    · intro h0
      rw [hunfold]
      have hall : ∀ p ∈ scoreDocs tfidf
          (descText reference :: (targets.filter hasDescription).map descText)
          (extractKeyTerms (descText reference) 20) 0 (targets.filter hasDescription),
          p.2 = (0 : ℝ) :=
        scoreDocs_snd_zero _ _ _ h0 _ 0
      have hsorted : List.Sorted (fun p q : Book × ℝ => q.2 ≤ p.2)
          (scoreDocs tfidf
            (descText reference :: (targets.filter hasDescription).map descText)
            (extractKeyTerms (descText reference) 20) 0 (targets.filter hasDescription)) :=
        List.pairwise_of_forall_mem_list fun p hp q hq => by
          rw [hall p hp, hall q hq]
      rw [hsorted.insertionSort_eq, List.map_take, scoreDocs_fst]
    · intro hlen b hb
      rw [hunfold]
      have hperm := List.perm_insertionSort (fun p q : Book × ℝ => q.2 ≤ p.2)
        (scoreDocs tfidf
          (descText reference :: (targets.filter hasDescription).map descText)
          (extractKeyTerms (descText reference) 20) 0 (targets.filter hasDescription))
      have hlens : ((scoreDocs tfidf
          (descText reference :: (targets.filter hasDescription).map descText)
          (extractKeyTerms (descText reference) 20) 0
          (targets.filter hasDescription)).insertionSort
            (fun p q => q.2 ≤ p.2)).length ≤ limit := by
        rw [hperm.length_eq]
        have := congrArg List.length (scoreDocs_fst tfidf
          (descText reference :: (targets.filter hasDescription).map descText)
          (extractKeyTerms (descText reference) 20) (targets.filter hasDescription) 0)
        rw [List.length_map] at this
        rw [this]
        exact hlen
      rw [List.take_of_length_le hlens]
      have hbmem : b ∈ (scoreDocs tfidf
          (descText reference :: (targets.filter hasDescription).map descText)
          (extractKeyTerms (descText reference) 20) 0
          (targets.filter hasDescription)).map Prod.fst := by
        rw [scoreDocs_fst]; exact hb
      rw [List.mem_map] at hbmem ⊢
      obtain ⟨p, hp, rfl⟩ := hbmem
      exact ⟨p, hperm.mem_iff.mpr hp, rfl⟩

theorem scoreOneBook_fst (cache : String → Option (List ℝ))
    (provider : String → Except AppErr (List ℝ))
    (referenceEmbedding : List ℝ) (book : Book) :
    (scoreOneBook cache provider referenceEmbedding book).1 = book := by
  unfold scoreOneBook
  split
  · rfl
  · split
    · rfl
    · rfl

theorem scoreOneBook_of_error (cache : String → Option (List ℝ))
    (provider : String → Except AppErr (List ℝ))
    (referenceEmbedding : List ℝ) (book : Book) (e : AppErr)
    (h : getBookEmbedding cache provider book = .error e) :
    scoreOneBook cache provider referenceEmbedding book = (book, -1) := by
  unfold scoreOneBook
  rw [h]

/-- C3: in `findSimilarByEmbeddings`, a failed reference-embedding lookup
fails the whole engine call with that very error (when there are candidates
at all; an empty pool short circuits before the lookup); when the reference
lookup succeeds the call returns a ranked list, every candidate whose own
lookup fails is scored -1 in the `similarityScores` array, and no such
candidate appears in the returned list. -/
theorem findSimilarByEmbeddings_failure_handling
    (cache : String → Option (List ℝ)) (provider : String → Except AppErr (List ℝ))
    (referenceBook : Book) (targetBooks : List Book) (limit : ℕ) :
    (¬ targetBooks.isEmpty = true →
      ∀ e, getBookEmbedding cache provider referenceBook = .error e →
        findSimilarByEmbeddings cache provider referenceBook targetBooks limit = .error e)
    ∧ (∀ referenceEmbedding,
        getBookEmbedding cache provider referenceBook = .ok referenceEmbedding →
        ∃ ranked,
          findSimilarByEmbeddings cache provider referenceBook targetBooks limit
            = .ok ranked
          ∧ ∀ book ∈ targetBooks,
              (∃ e, getBookEmbedding cache provider book = .error e) →
                (book, (-1 : ℝ))
                    ∈ embeddingScores cache provider referenceEmbedding targetBooks
                ∧ book ∉ ranked) := by
  constructor
  · intro hne e he
    have hne' : targetBooks.isEmpty = false := Bool.not_eq_true _ ▸ Bool.eq_false_iff.mpr hne
    simp only [findSimilarByEmbeddings, hne', Bool.false_eq_true, if_false, he]
  · intro referenceEmbedding href
    by_cases hvt : targetBooks.isEmpty
    · refine ⟨[], by simp [findSimilarByEmbeddings, hvt], ?_⟩
      rw [List.isEmpty_iff] at hvt
      subst hvt
      intro book hb
      simp at hb
    · have hvt' : targetBooks.isEmpty = false := Bool.eq_false_iff.mpr hvt
      refine ⟨((((embeddingScores cache provider referenceEmbedding targetBooks).filter
          (fun p => decide (0 ≤ p.2))).insertionSort
            (fun p q => q.2 ≤ p.2)).take limit).map Prod.fst,
        by simp only [findSimilarByEmbeddings, hvt', Bool.false_eq_true,
          if_false, href], ?_⟩
      intro book hb hfail
      obtain ⟨e, he⟩ := hfail
      have hscore : scoreOneBook cache provider referenceEmbedding book = (book, -1) :=
        scoreOneBook_of_error _ _ _ _ _ he
      constructor
      · rw [← hscore]
        exact List.mem_map_of_mem _ hb
      · intro habs
        obtain ⟨s, hs⟩ := mem_of_mem_sortTakeMap _ _ _ _ habs
        rw [List.mem_filter] at hs
        obtain ⟨hmem, hnonneg⟩ := hs
        have hsge : (0 : ℝ) ≤ s := of_decide_eq_true hnonneg
        rw [embeddingScores, List.mem_map] at hmem
        obtain ⟨a, ha, hfa⟩ := hmem
        have ha1 : a = book := by
          have := scoreOneBook_fst cache provider referenceEmbedding a
          rw [hfa] at this
          exact this.symm
        subst ha1
        rw [hscore] at hfa
        have hs1 : s = (-1 : ℝ) := by
          have := congrArg Prod.snd hfa
          simpa using this.symm
        rw [hs1] at hsge
        norm_num at hsge

/-- C10: the ranked list of `findSimilarByEmbeddings` never contains a
candidate whose cosine similarity against the reference embedding is
negative — the score filter drops a successfully embedded negative-scoring
candidate exactly as it drops a failed lookup. -/
theorem findSimilarByEmbeddings_no_negative
    (cache : String → Option (List ℝ)) (provider : String → Except AppErr (List ℝ))
    (referenceBook : Book) (targetBooks : List Book) (limit : ℕ)
    (referenceEmbedding : List ℝ) (book : Book) (embedding : List ℝ) (s : ℝ)
    (ranked : List Book)
    (h1 : getBookEmbedding cache provider referenceBook = .ok referenceEmbedding)
    (h2 : getBookEmbedding cache provider book = .ok embedding)
    (h3 : calculateCosineSimilarity referenceEmbedding embedding = .ok s)
    (h4 : s < 0)
    (h5 : findSimilarByEmbeddings cache provider referenceBook targetBooks limit
        = .ok ranked) :
    book ∉ ranked := by
  by_cases hvt : targetBooks.isEmpty
  · have : ranked = [] := by
      simp only [findSimilarByEmbeddings, hvt, if_true, Except.ok.injEq] at h5
      exact h5.symm
    subst this
    simp
  · have hvt' : targetBooks.isEmpty = false := Bool.eq_false_iff.mpr hvt
    simp only [findSimilarByEmbeddings, hvt', Bool.false_eq_true, if_false, h1,
      Except.ok.injEq] at h5
    subst h5
    intro habs
    obtain ⟨t, ht⟩ := mem_of_mem_sortTakeMap _ _ _ _ habs
    rw [List.mem_filter] at ht
    obtain ⟨hmem, hnonneg⟩ := ht
    have htge : (0 : ℝ) ≤ t := of_decide_eq_true hnonneg
    rw [embeddingScores, List.mem_map] at hmem
    obtain ⟨a, ha, hfa⟩ := hmem
    have ha1 : a = book := by
      have := scoreOneBook_fst cache provider referenceEmbedding a
      rw [hfa] at this
      exact this.symm
    rw [ha1] at hfa
    have hscore : scoreOneBook cache provider referenceEmbedding book = (book, s) := by
      simp only [scoreOneBook, h2, h3]
    rw [hscore] at hfa
    have ht1 : t = s := by
      have := congrArg Prod.snd hfa
      simpa using this.symm
    rw [ht1] at htge
    exact absurd (lt_of_le_of_lt htge h4) (lt_irrefl _)

theorem sumSq_nonneg (vec : List ℝ) : 0 ≤ sumSq vec := by
  refine List.sum_nonneg ?_
  intro x hx
  obtain ⟨y, _, rfl⟩ := List.mem_map.mp hx
  exact mul_self_nonneg y

theorem dotList_sq_le (a : List ℝ) :
    ∀ b : List ℝ, dotList a b ^ 2 ≤ sumSq a * sumSq b := by
  induction a with
  | nil =>
    intro b
    simp [dotList, sumSq]
  | cons x as ih =>
    intro b
    cases b with
    | nil => simp [dotList, sumSq]
    | cons y bs =>
      have hA := sumSq_nonneg as
      have hB := sumSq_nonneg bs
      have hd := ih bs
      have hcons1 : dotList (x :: as) (y :: bs) = x * y + dotList as bs := by
        simp [dotList]
      have hcons2 : sumSq (x :: as) = x * x + sumSq as := by
        simp [sumSq]
      have hcons3 : sumSq (y :: bs) = y * y + sumSq bs := by
        simp [sumSq]
      rw [hcons1, hcons2, hcons3]
      rcases eq_or_lt_of_le hB with h | h
      · have hd0 : dotList as bs = 0 := by nlinarith [sq_nonneg (dotList as bs)]
        rw [hd0]
        nlinarith [mul_nonneg hA (mul_self_nonneg y)]
      · nlinarith [sq_nonneg (x * sumSq bs - y * dotList as bs),
          sq_nonneg (x * y + dotList as bs), sq_nonneg (dotList as bs)]

/-- C8: on equal-dimension vectors, `calculateCosineSimilarity` returns the
dot product over the product of magnitudes, which lies in [-1, 1] when both
magnitudes are non-zero, and returns exactly 0 when either magnitude is 0
(the divide-by-zero guard). -/
theorem calculateCosineSimilarity_range (a b : List ℝ)
    (hlen : a.length = b.length) :
    (magnitude a ≠ 0 → magnitude b ≠ 0 →
        calculateCosineSimilarity a b
            = .ok (dotList a b / (magnitude a * magnitude b))
          ∧ -1 ≤ dotList a b / (magnitude a * magnitude b)
          ∧ dotList a b / (magnitude a * magnitude b) ≤ 1)
    ∧ ((magnitude a = 0 ∨ magnitude b = 0) → calculateCosineSimilarity a b = .ok 0) := by
  constructor
  · intro hma hmb
    have heq : calculateCosineSimilarity a b
        = .ok (dotList a b / (magnitude a * magnitude b)) := by
      unfold calculateCosineSimilarity
      rw [if_neg (by simp [hlen]), if_neg (by simp [hma, hmb])]
    have hsq : dotList a b ^ 2 ≤ (magnitude a * magnitude b) ^ 2 := by
      rw [mul_pow]
      unfold magnitude
      rw [Real.sq_sqrt (sumSq_nonneg a), Real.sq_sqrt (sumSq_nonneg b)]
      exact dotList_sq_le a b
    have habs : |dotList a b| ≤ magnitude a * magnitude b := by
      calc |dotList a b| = Real.sqrt (dotList a b ^ 2) := by
            rw [Real.sqrt_sq_eq_abs]
        _ ≤ Real.sqrt ((magnitude a * magnitude b) ^ 2) := Real.sqrt_le_sqrt hsq
        _ = |magnitude a * magnitude b| := Real.sqrt_sq_eq_abs _
        _ = magnitude a * magnitude b :=
            abs_of_nonneg (mul_nonneg (Real.sqrt_nonneg _) (Real.sqrt_nonneg _))
    have hpos : 0 < magnitude a * magnitude b :=
      mul_pos (lt_of_le_of_ne (Real.sqrt_nonneg _) (Ne.symm hma))
        (lt_of_le_of_ne (Real.sqrt_nonneg _) (Ne.symm hmb))
    have hdiv : |dotList a b / (magnitude a * magnitude b)| ≤ 1 := by
      rw [abs_div, abs_of_pos hpos]
      exact div_le_one_of_le₀ habs hpos.le
    exact ⟨heq, (abs_le.mp hdiv).1, (abs_le.mp hdiv).2⟩
  · intro hzero
    unfold calculateCosineSimilarity
    rw [if_neg (by simp [hlen]), if_pos hzero]

theorem sortByTitle_eq_nil_iff (books : List BookDB) :
    sortByTitle books = [] ↔ books = [] := by
  constructor
  · intro h
    unfold sortByTitle at h
    have hlen := (List.perm_insertionSort
      (fun a b : BookDB => lexLe a.book_title.toList b.book_title.toList = true)
      books).length_eq
    rw [h] at hlen
    have h0 : books.length = 0 := by simpa using hlen.symm
    exact List.length_eq_zero.mp h0
  · intro h
    subst h
    rfl

/-- C2 (amended): the weekly selector is exactly the spec-worded tier
construction — first non-empty of the three availability tiers, each sorted
by title, indexed by the epoch-week number modulo the tier size — applied
to the wish partition only. The code queries only the `wish` table, not
both partitions. -/
theorem getWeeklyRecommendation_tiers_wish_only (nowMillis : ℕ)
    (store : BookType → List BookDB) :
    getWeeklyRecommendation nowMillis store
      = weeklyPickSpec nowMillis (store BookType.wish) := by
  unfold getWeeklyRecommendation weeklyPickSpec
  cases hA : (sortByTitle ((store BookType.wish).filter
      (fun b => b.exist_in_UTokyo == "Yes"))).isEmpty with
  | true =>
    cases hB : (sortByTitle ((store BookType.wish).filter
        (fun b => b.exist_in_Sophia == "Yes"))).isEmpty with
    | true => simp [hA, hB]
    | false => simp [hA, hB]
  | false => simp [hA]

/-- C4 (amended): the weekly selector fails with NotFound exactly when the
wish partition is empty, and returns a pick whenever the wish partition is
non-empty — the stacked partition plays no role. -/
theorem getWeeklyRecommendation_notFound_iff_wish_empty (nowMillis : ℕ)
    (store : BookType → List BookDB) :
    (getWeeklyRecommendation nowMillis store = .error AppErr.notFound
        ↔ store BookType.wish = [])
    ∧ (store BookType.wish ≠ [] →
        ∃ pick, getWeeklyRecommendation nowMillis store = .ok pick) := by
  by_cases hw : store BookType.wish = []
  · constructor
    · rw [hw]
      simp [getWeeklyRecommendation, hw, sortByTitle, pickAt]
    · intro h
      exact absurd hw h
  · have hbooks : ∀ books : List BookDB,
        books ≠ [] → ∃ pick, pickAt (nowMillis / weekMillis) books = .ok pick := by
      intro books hne
      unfold pickAt
      rw [dif_neg hne]
      exact ⟨_, rfl⟩
    have hnonempty : ∃ pick, getWeeklyRecommendation nowMillis store = .ok pick := by
      unfold getWeeklyRecommendation
      cases hB : (if (sortByTitle ((store BookType.wish).filter
          (fun b => b.exist_in_UTokyo == "Yes"))).isEmpty then
            sortByTitle ((store BookType.wish).filter
              (fun b => b.exist_in_Sophia == "Yes"))
          else
            sortByTitle ((store BookType.wish).filter
              (fun b => b.exist_in_UTokyo == "Yes"))).isEmpty with
      | true =>
        simp only [hB, if_true]
        exact hbooks _ (fun h => hw ((sortByTitle_eq_nil_iff _).mp h))
      | false =>
        simp only [hB, Bool.false_eq_true, if_false]
        exact hbooks _ (fun h => by
          rw [h] at hB
          simp at hB)
    constructor
    · constructor
      · intro herr
        obtain ⟨pick, hpick⟩ := hnonempty
        rw [hpick] at herr
        exact absurd herr (by simp)
      · intro h
        exact absurd h hw
    · intro _
      exact hnonempty

/-- C9: the weekly pick is a deterministic function of the computed week
number and the store contents — two clock readings in the same week give
the identical result on an unchanged catalog; there is no persisted or
random state. -/
theorem getWeeklyRecommendation_deterministic (now1 now2 : ℕ)
    (store : BookType → List BookDB)
    (h : now1 / weekMillis = now2 / weekMillis) :
    getWeeklyRecommendation now1 store = getWeeklyRecommendation now2 store := by
  unfold getWeeklyRecommendation
  rw [h]

theorem findSimilarByDescription_filter (tfidf : TfIdfModel) (referenceBook : Book)
    (targetBooks : List Book) (limit : ℕ) :
    findSimilarByDescription tfidf referenceBook (targetBooks.filter hasDescription) limit
      = findSimilarByDescription tfidf referenceBook targetBooks limit := by
  unfold findSimilarByDescription
  rw [List.filter_filter]
  simp only [Bool.and_self]

theorem findSimilarByTitleAndAuthor_nil (referenceBook : Book) (limit : ℕ) :
    findSimilarByTitleAndAuthor referenceBook [] limit = [] := by
  simp [findSimilarByTitleAndAuthor, List.insertionSort]

theorem findSimilarByDescription_nil (tfidf : TfIdfModel) (referenceBook : Book)
    (limit : ℕ) :
    findSimilarByDescription tfidf referenceBook [] limit = [] := by
  simp [findSimilarByDescription]

/-- C1 (amended): with an embedding provider that fails on every call,
`getSimilarBooks` never surfaces a provider error (in fact it never does,
whatever the provider: the orchestrator catches every error of the
embedding engine), and — whenever the reference resolves and its own
embedding is not cached — it returns exactly what the TF-IDF engine alone
returns over the full candidate pool when the reference has descriptive
text, and exactly what the metadata engine alone returns over the
candidates with descriptive text (not the full pool) otherwise. -/
theorem getSimilarBooks_fallback (cache : String → Option (List ℝ))
    (provider : String → Except AppErr (List ℝ)) (tfidf : TfIdfModel)
    (store : BookType → List BookDB) (referenceBookUrl : String)
    (type : BookType) (limit : ℕ)
    (hprov : ∀ text, provider text = .error AppErr.provider) :
    (∀ e, getSimilarBooks cache provider tfidf store referenceBookUrl type limit
        = .error e → e ≠ AppErr.provider)
    ∧ ∀ referenceDbBook rest,
        referenceBookUrl ≠ "" →
        (store type).filter (fun b => b.bookmeter_url == referenceBookUrl)
          = referenceDbBook :: rest →
        cache referenceDbBook.bookmeter_url = none →
        getSimilarBooks cache provider tfidf store referenceBookUrl type limit
          = .ok (if hasDescription (convertToAppModel referenceDbBook) then
              findSimilarByDescription tfidf (convertToAppModel referenceDbBook)
                ((((store type).filter
                    (fun b => !(b.bookmeter_url == referenceBookUrl))).take 100).map
                  convertToAppModel) limit
            else
              findSimilarByTitleAndAuthor (convertToAppModel referenceDbBook)
                (((((store type).filter
                    (fun b => !(b.bookmeter_url == referenceBookUrl))).take 100).map
                  convertToAppModel).filter hasDescription) limit) := by
  constructor
  · intro e he
    unfold getSimilarBooks at he
    by_cases hurl : (referenceBookUrl == "") = true
    · rw [if_pos hurl] at he
      cases he
      decide
    · rw [if_neg hurl] at he
      cases hfl : (store type).filter (fun b => b.bookmeter_url == referenceBookUrl) with
      | nil =>
        rw [hfl] at he
        cases he
        decide
      | cons refDb rest =>
        rw [hfl] at he
        dsimp only at he
        cases hfe : findSimilarByEmbeddings cache provider (convertToAppModel refDb)
            ((((store type).filter
              (fun b => !(b.bookmeter_url == referenceBookUrl))).take 100).map
              convertToAppModel) limit with
        | ok result =>
          rw [hfe] at he
          cases he
        | error e2 =>
          rw [hfe] at he
          cases hd : hasDescription (convertToAppModel refDb) with
          | true => rw [hd] at he; simp at he
          | false => rw [hd] at he; simp at he
  · intro referenceDbBook rest hurl hfilter hcache
    have hbeq : (referenceBookUrl == "") = false := beq_eq_false_iff_ne.mpr hurl
    unfold getSimilarBooks
    rw [if_neg (by rw [hbeq]; exact Bool.false_ne_true), hfilter]
    dsimp only
    by_cases hvt : ((((store type).filter
        (fun b => !(b.bookmeter_url == referenceBookUrl))).take 100).map
        convertToAppModel).isEmpty
    · have hnil : (((store type).filter
          (fun b => !(b.bookmeter_url == referenceBookUrl))).take 100).map
          convertToAppModel = [] := List.isEmpty_iff.mp hvt
      rw [hnil]
      have hfe : findSimilarByEmbeddings cache provider
          (convertToAppModel referenceDbBook) [] limit = .ok [] := rfl
      rw [hfe]
      cases hd : hasDescription (convertToAppModel referenceDbBook) with
      | true => simp [findSimilarByDescription_nil]
      | false => simp [findSimilarByTitleAndAuthor_nil]
    · have hvt' : ((((store type).filter
          (fun b => !(b.bookmeter_url == referenceBookUrl))).take 100).map
          convertToAppModel).isEmpty = false := Bool.eq_false_iff.mpr hvt
      have hremb : getBookEmbedding cache provider
          (convertToAppModel referenceDbBook) = .error AppErr.provider := by
        unfold getBookEmbedding
        have : cache (convertToAppModel referenceDbBook).bookmeter_url = none := hcache
        rw [this, hprov]
      have hfe : findSimilarByEmbeddings cache provider
          (convertToAppModel referenceDbBook)
          ((((store type).filter
            (fun b => !(b.bookmeter_url == referenceBookUrl))).take 100).map
            convertToAppModel) limit = .error AppErr.provider := by
        unfold findSimilarByEmbeddings
        rw [if_neg (by rw [hvt']; exact Bool.false_ne_true), hremb]
      rw [hfe]
      cases hd : hasDescription (convertToAppModel referenceDbBook) with
      | true => simp [findSimilarByDescription_filter]
      | false => simp

/-- C1 witness: on a concrete two-book store whose reference has
descriptive text, with an empty cache and a provider that always fails,
the orchestrator returns exactly the TF-IDF engine's output. -/
theorem getSimilarBooks_fallback_witness :
    getSimilarBooks cacheNone providerDown tfidfZero storeC1 "u1" BookType.wish 5
      = .ok (if hasDescription (convertToAppModel refDbC1) then
          findSimilarByDescription tfidfZero (convertToAppModel refDbC1)
            ((((storeC1 BookType.wish).filter
                (fun b => !(b.bookmeter_url == "u1"))).take 100).map
              convertToAppModel) 5
        else
          findSimilarByTitleAndAuthor (convertToAppModel refDbC1)
            (((((storeC1 BookType.wish).filter
                (fun b => !(b.bookmeter_url == "u1"))).take 100).map
              convertToAppModel).filter hasDescription) 5) :=
  (getSimilarBooks_fallback cacheNone providerDown tfidfZero storeC1 "u1"
    BookType.wish 5 (fun _ => rfl)).2 refDbC1 [] (by decide) (by decide) rfl

/-- C1 counterexample: reference and sole candidate both lack descriptive
text; the provider always fails and the cache is empty. The orchestrator
returns the empty list, while the metadata engine over the full candidate
pool (what the claim asserts) returns that candidate — score 0 candidates
participate in its ranking. -/
theorem getSimilarBooks_metadata_full_pool_cex :
    getSimilarBooks cacheNone providerDown tfidfZero storeX "x1" BookType.wish 5
      = .ok []
    ∧ ((((storeX BookType.wish).filter
        (fun b => !(b.bookmeter_url == "x1"))).take 100).map convertToAppModel)
      = [convertToAppModel candDbX]
    ∧ findSimilarByTitleAndAuthor (convertToAppModel refDbX)
        [convertToAppModel candDbX] 5
      = [convertToAppModel candDbX] := by
  refine ⟨rfl, by decide, by decide⟩

/-- C2 counterexample: with an empty wish partition and a primary-flagged
item in the stacked partition, the code fails NotFound while the claim's
both-partition tier construction picks that item. -/
theorem getWeeklyRecommendation_both_partitions_cex :
    getWeeklyRecommendation 0 storeStackedOnly = .error AppErr.notFound
    ∧ weeklyPickSpec 0
        (storeStackedOnly BookType.wish ++ storeStackedOnly BookType.stacked)
      = .ok (convertToAppModel bStacked)
    ∧ getWeeklyRecommendation 0 storeStackedOnly
      ≠ weeklyPickSpec 0
          (storeStackedOnly BookType.wish ++ storeStackedOnly BookType.stacked) := by
  refine ⟨rfl, rfl, ?_⟩
  intro h
  have h2 : (Except.error AppErr.notFound : Except AppErr Book)
      = .ok (convertToAppModel bStacked) := h
  exact Except.noConfusion h2

/-- C4 counterexample: an item exists in the stacked partition, yet the
weekly selector fails NotFound because the wish partition is empty. -/
theorem getWeeklyRecommendation_stacked_only_cex :
    storeStackedOnly BookType.stacked ≠ []
    ∧ getWeeklyRecommendation 0 storeStackedOnly = .error AppErr.notFound := by
  refine ⟨by decide, rfl⟩

/-- C9 witness: two clock readings inside epoch week 0 give the identical
pick on a concrete one-book store. -/
theorem getWeeklyRecommendation_deterministic_witness :
    getWeeklyRecommendation 0 storeOneWish
      = getWeeklyRecommendation 604799999 storeOneWish :=
  getWeeklyRecommendation_deterministic 0 604799999 storeOneWish (by decide)

/-- C8 witness: on the concrete orthogonal pair [1, 0] and [0, 1] the
cosine value is returned as dot over magnitudes and lies in [-1, 1]. -/
theorem calculateCosineSimilarity_range_witness :
    calculateCosineSimilarity [(1 : ℝ), 0] [0, 1]
        = .ok (dotList [(1 : ℝ), 0] [0, 1]
            / (magnitude [(1 : ℝ), 0] * magnitude [0, 1]))
    ∧ -1 ≤ dotList [(1 : ℝ), 0] [0, 1]
        / (magnitude [(1 : ℝ), 0] * magnitude [0, 1])
    ∧ dotList [(1 : ℝ), 0] [0, 1]
        / (magnitude [(1 : ℝ), 0] * magnitude [0, 1]) ≤ 1
    ∧ calculateCosineSimilarity [(0 : ℝ), 0] [1, 1] = .ok 0 := by
  have hma : magnitude [(1 : ℝ), 0] = 1 := by
    unfold magnitude sumSq
    norm_num
  have hmb : magnitude [(0 : ℝ), 1] = 1 := by
    unfold magnitude sumSq
    norm_num
  have hm0 : magnitude [(0 : ℝ), 0] = 0 := by
    unfold magnitude sumSq
    norm_num
  have h1 := (calculateCosineSimilarity_range [(1 : ℝ), 0] [0, 1] rfl).1
    (by rw [show magnitude [(0 : ℝ), 1] = magnitude [0, 1] from rfl] at hmb
        rw [hma]; norm_num)
    (by rw [show magnitude [(0 : ℝ), 1] = magnitude [0, 1] from rfl] at hmb
        rw [hmb]; norm_num)
  have h2 := (calculateCosineSimilarity_range [(0 : ℝ), 0] [1, 1] rfl).2
    (Or.inl hm0)
  exact ⟨h1.1, h1.2.1, h1.2.2, h2⟩

/-- C10 witness: a candidate whose cached embedding points opposite the
reference's (cosine -1) is dropped: the engine returns the empty ranked
list, which indeed does not contain the candidate. -/
theorem findSimilarByEmbeddings_no_negative_witness :
    findSimilarByEmbeddings cacheC10 providerDown refC10 [negC10] 5 = .ok []
    ∧ negC10 ∉ ([] : List Book) := by
  have hcos : calculateCosineSimilarity [(1 : ℝ)] [(-1 : ℝ)] = .ok (-1) := by
    have hm1 : magnitude [(1 : ℝ)] = 1 := by
      unfold magnitude sumSq
      norm_num
    have hm2 : magnitude [(-1 : ℝ)] = 1 := by
      unfold magnitude sumSq
      norm_num
    unfold calculateCosineSimilarity
    rw [if_neg (by norm_num), if_neg (by rw [hm1, hm2]; norm_num)]
    rw [hm1, hm2]
    unfold dotList
    norm_num
  have hrefemb : getBookEmbedding cacheC10 providerDown refC10 = .ok [1] := rfl
  have hnegemb : getBookEmbedding cacheC10 providerDown negC10 = .ok [-1] := rfl
  have hscore : scoreOneBook cacheC10 providerDown [1] negC10 = (negC10, -1) := by
    simp only [scoreOneBook, hnegemb, hcos]
  have heval : findSimilarByEmbeddings cacheC10 providerDown refC10 [negC10] 5
      = .ok [] := by
    unfold findSimilarByEmbeddings
    rw [if_neg (by simp), hrefemb]
    simp only [embeddingScores, List.map_cons, List.map_nil, hscore]
    norm_num [List.insertionSort]
  exact ⟨heval,
    findSimilarByEmbeddings_no_negative cacheC10 providerDown refC10 [negC10] 5
      [1] negC10 [-1] (-1) [] hrefemb hnegemb hcos (by norm_num) heval⟩
